import Mathlib

/-!
Verification of the smart-extractor ingestion/classification/storage pipeline
(`src/workflows/smart-extractor/`): shallow embedding of the core components
(`core/loader.py`, `core/detector.py`, `core/storage.py`, `main.py`) and
proofs of the specified properties.

Strings are modelled as `List Char` at the character level (ASCII model of
Python's `str` operations; the URLs, titles and manifests in the claims are
ASCII).  Fallible Python code is modelled with `Option`/`Except`; the
filesystem is an explicit association list from path to file content;
wall-clock timestamps are opaque parameters threaded through the state.
-/

namespace AiStudio

/-! ## Python string primitives (ASCII model) -/

/-- Python `str.strip()` whitespace: space, tab, newline, carriage return,
vertical tab, form feed. -/
def pySpace (c : Char) : Bool :=
  c == ' ' || c == '\t' || c == '\n' || c == '\r' || c == '\x0b' || c == '\x0c'

/-- Python `str.strip()` on a character list. -/
def stripL (cs : List Char) : List Char :=
  ((cs.dropWhile pySpace).reverse.dropWhile pySpace).reverse

/-- Python `str.lower()` (ASCII model). -/
def lowerL (cs : List Char) : List Char := cs.map Char.toLower

/-- `isPrefixOfL needle hay` : `hay` starts with `needle`. -/
def isPrefixOfL : List Char → List Char → Bool
  | [], _ => true
  | _ :: _, [] => false
  | a :: as, b :: bs => a == b && isPrefixOfL as bs

/-- Python substring test `needle in hay`. -/
def containsSubL (needle : List Char) : List Char → Bool
  | [] => isPrefixOfL needle []
  | c :: t => isPrefixOfL needle (c :: t) || containsSubL needle t

/-- Python `s.count(c)` for a single character. -/
def countCharL (c0 : Char) (cs : List Char) : Nat :=
  (cs.filter (fun c => c == c0)).length

/-- Python `s.split(sep)` for a one-character separator: split at every
occurrence, keeping empty fragments. -/
def splitOnCharL (sep : Char) : List Char → List (List Char)
  | [] => [[]]
  | c :: cs =>
    match splitOnCharL sep cs with
    | [] => [[]]
    | p :: ps => if c == sep then [] :: p :: ps else (c :: p) :: ps

/-- Python `s.strip(chars)` : drop characters of `set` from both ends. -/
def stripCharsL (set : List Char) (cs : List Char) : List Char :=
  ((cs.dropWhile (fun c => set.contains c)).reverse.dropWhile
    (fun c => set.contains c)).reverse

/-! ## JSON values and a model of Python `json.loads`

The manifest loader (`core/loader.py`) drives everything through
`json.loads`.  We embed a strict JSON parser over `List Char`: values are
`null`, booleans, numbers (kept as their lexeme — no claim depends on
numeric magnitude), strings with the standard escapes, arrays and objects
(member lists in textual order).  `NaN`/`Infinity`/`-Infinity` are accepted
as number lexemes, as Python's default decoder does. -/

inductive Json where
  | null : Json
  | bool (b : Bool) : Json
  | num (lexeme : String) : Json
  | str (s : String) : Json
  | arr (elems : List Json) : Json
  | obj (members : List (String × Json)) : Json

/-- JSON whitespace (` \t\n\r`). -/
def jsonWsChar (c : Char) : Bool := c == ' ' || c == '\t' || c == '\n' || c == '\r'

def skipJsonWs (cs : List Char) : List Char := cs.dropWhile jsonWsChar

def hexDigitVal (c : Char) : Option Nat :=
  if '0' ≤ c ∧ c ≤ '9' then some (c.toNat - 48)
  else if 'a' ≤ c ∧ c ≤ 'f' then some (c.toNat - 87)
  else if 'A' ≤ c ∧ c ≤ 'F' then some (c.toNat - 55)
  else none

/-- Single-character JSON escapes. -/
def escChar (e : Char) : Option Char :=
  if e == '"' then some '"'
  else if e == '\\' then some '\\'
  else if e == '/' then some '/'
  else if e == 'b' then some (Char.ofNat 8)
  else if e == 'f' then some (Char.ofNat 12)
  else if e == 'n' then some '\n'
  else if e == 'r' then some '\r'
  else if e == 't' then some '\t'
  else none

/-- Parse the body of a JSON string after the opening quote; returns the
decoded characters and the input after the closing quote. -/
def parseStringBody : Nat → List Char → Option (List Char × List Char)
  | 0, _ => none
  | _ + 1, [] => none
  | fuel + 1, c :: cs =>
    if c == '"' then some ([], cs)
    else if c == '\\' then
      match cs with
      | 'u' :: h1 :: h2 :: h3 :: h4 :: rest =>
        match hexDigitVal h1, hexDigitVal h2, hexDigitVal h3, hexDigitVal h4 with
        | some a, some b, some d, some e =>
          match parseStringBody fuel rest with
          | some (body, rem) => some (Char.ofNat (((a * 16 + b) * 16 + d) * 16 + e) :: body, rem)
          | none => none
        | _, _, _, _ => none
      | e :: rest =>
        match escChar e with
        | some ch =>
          match parseStringBody fuel rest with
          | some (body, rem) => some (ch :: body, rem)
          | none => none
        | none => none
      | [] => none
    else if c.toNat < 32 then none
    else
      match parseStringBody fuel cs with
      | some (body, rem) => some (c :: body, rem)
      | none => none

def digitB (c : Char) : Bool := '0' ≤ c && c ≤ '9'

/-- Optional exponent part of a JSON number, appended to lexeme `acc`. -/
def parseExpPart (acc : List Char) (cs : List Char) : Option (List Char × List Char) :=
  match cs with
  | e :: t =>
    if e == 'e' || e == 'E' then
      match t with
      | s :: t2 =>
        if s == '+' || s == '-' then
          match t2 with
          | d :: _ =>
            if digitB d then
              some (acc ++ e :: s :: t2.takeWhile digitB, t2.dropWhile digitB)
            else none
          | [] => none
        else if digitB s then
          some (acc ++ e :: t.takeWhile digitB, t.dropWhile digitB)
        else none
      | [] => none
    else some (acc, cs)
  | [] => some (acc, cs)

/-- Optional fraction part of a JSON number, then the exponent part. -/
def parseFracPart (acc : List Char) (cs : List Char) : Option (List Char × List Char) :=
  match cs with
  | '.' :: t =>
    match t with
    | d :: _ =>
      if digitB d then
        parseExpPart (acc ++ '.' :: t.takeWhile digitB) (t.dropWhile digitB)
      else none
    | [] => none
  | _ => parseExpPart acc cs

/-- JSON number starting at `cs` (sign and integer part, then fraction and
exponent); returns the lexeme and the rest. -/
def parseNumberL (cs : List Char) : Option (List Char × List Char) :=
  let step : List Char → List Char → Option (List Char × List Char) := fun sign cs1 =>
    match cs1 with
    | c :: t =>
      if c == '0' then parseFracPart (sign ++ [c]) t
      else if digitB c then
        parseFracPart (sign ++ c :: t.takeWhile digitB) (t.dropWhile digitB)
      else none
    | [] => none
  match cs with
  | '-' :: t => step ['-'] t
  | _ => step [] cs

mutual

/-- One JSON value (after optional leading whitespace), returning the rest of
the input.  Mirrors Python `json.loads`'s grammar. -/
def parseValue : Nat → List Char → Option (Json × List Char)
  | 0, _ => none
  | fuel + 1, cs0 =>
    match skipJsonWs cs0 with
    | [] => none
    | c :: cs =>
      if c == '\x7b' then parseMembers fuel (skipJsonWs cs) []
      else if c == '[' then parseElems fuel (skipJsonWs cs) []
      else if c == '"' then
        match parseStringBody (cs.length + 1) cs with
        | some (body, rem) => some (Json.str (String.mk body), rem)
        | none => none
      else
        match c :: cs with
        | 't' :: 'r' :: 'u' :: 'e' :: r => some (Json.bool true, r)
        | 'f' :: 'a' :: 'l' :: 's' :: 'e' :: r => some (Json.bool false, r)
        | 'n' :: 'u' :: 'l' :: 'l' :: r => some (Json.null, r)
        | 'N' :: 'a' :: 'N' :: r => some (Json.num "NaN", r)
        | 'I' :: 'n' :: 'f' :: 'i' :: 'n' :: 'i' :: 't' :: 'y' :: r =>
          some (Json.num "Infinity", r)
        | '-' :: 'I' :: 'n' :: 'f' :: 'i' :: 'n' :: 'i' :: 't' :: 'y' :: r =>
          some (Json.num "-Infinity", r)
        | rest =>
          match parseNumberL rest with
          | some (lexeme, rem) => some (Json.num (String.mk lexeme), rem)
          | none => none

/-- Elements of an array after `[` (with leading whitespace consumed);
`acc` holds the elements parsed so far. -/
def parseElems : Nat → List Char → List Json → Option (Json × List Char)
  | 0, _, _ => none
  | _ + 1, ']' :: r, [] => some (Json.arr [], r)
  | fuel + 1, cs, acc =>
    match parseValue fuel cs with
    | some (v, rest) =>
      match skipJsonWs rest with
      | ',' :: r2 => parseElems fuel r2 (acc ++ [v])
      | ']' :: r2 => some (Json.arr (acc ++ [v]), r2)
      | _ => none
    | none => none

/-- Members of an object after `{` (with leading whitespace consumed). -/
def parseMembers : Nat → List Char → List (String × Json) → Option (Json × List Char)
  | 0, _, _ => none
  | _ + 1, '\x7d' :: r, [] => some (Json.obj [], r)
  | fuel + 1, cs, acc =>
    match cs with
    | '"' :: r =>
      match parseStringBody (r.length + 1) r with
      | some (key, r2) =>
        match skipJsonWs r2 with
        | ':' :: r3 =>
          match parseValue fuel r3 with
          | some (v, r4) =>
            match skipJsonWs r4 with
            | ',' :: r5 => parseMembers fuel (skipJsonWs r5) (acc ++ [(String.mk key, v)])
            | '\x7d' :: r5 => some (Json.obj (acc ++ [(String.mk key, v)]), r5)
            | _ => none
          | none => none
        | _ => none
      | none => none
    | _ => none

end

/-- Model of `json.loads` on a character list: one JSON document with only
whitespace around it. -/
def jsonLoadsL (cs : List Char) : Option Json :=
  match parseValue (4 * cs.length + 8) cs with
  | some (v, rest) => if skipJsonWs rest = [] then some v else none
  | none => none

/-- Model of `json.loads` on a string. -/
def jsonLoads (s : String) : Option Json := jsonLoadsL s.data

/-! ## ResourceLoader (`core/loader.py`) -/

/-- One fragment of `ResourceLoader._parse_multi_array`'s loop body: strip the
fragment, skip it when empty, re-append `]` when missing, re-prepend `[` when
missing, parse; on parse failure, strip brackets and retry as a bare object;
fragments that still fail are dropped. -/
def processPart (part0 : List Char) : List Json :=
  let part1 := stripL part0
  if part1 = [] then []
  else
    let part2 := if part1.getLast? = some ']' then part1 else part1 ++ [']']
    let part3 := if part2.head? = some '[' then part2 else '[' :: part2
    match jsonLoadsL part3 with
    | some (Json.arr xs) => xs
    | some (Json.obj kvs) => [Json.obj kvs]
    | some _ => []
    | none =>
      let objPart := stripL (stripCharsL ['[', ']'] part3)
      if objPart = [] then []
      else
        match jsonLoadsL objPart with
        | some (Json.obj kvs) => [Json.obj kvs]
        | _ => []

/-- `ResourceLoader._parse_multi_array`: split the raw text on every `]`,
recover each fragment independently, concatenate the recovered entries. -/
def parseMultiArrayL (content : List Char) : List Json :=
  ((splitOnCharL ']' content).map processPart).flatten

/-- Errors `ResourceLoader.load_resources` can raise: `FileNotFoundError`
when the path does not exist, and the uncaught
`ValueError("Unexpected JSON structure")` when the document strict-parses to
a value that is neither an array nor an object (`except json.JSONDecodeError`
does not catch a plain `ValueError`). -/
inductive LoadError where
  | fileNotFound : LoadError
  | unexpectedStructure : LoadError
deriving DecidableEq

/-- `ResourceLoader.load_resources`.  The filesystem read is modelled by the
argument: `none` means the path does not exist, `some content` is the file's
text. -/
def loadResources (file : Option String) : Except LoadError (List Json) :=
  match file with
  | none => Except.error LoadError.fileNotFound
  | some content =>
    match jsonLoads content with
    | some (Json.arr xs) => Except.ok xs
    | some (Json.obj kvs) => Except.ok [Json.obj kvs]
    | some _ => Except.error LoadError.unexpectedStructure
    | none => Except.ok (parseMultiArrayL content.data)

/-- A resource record as the orchestrator and deduplication see it: an
optional `url` field (Python `resource.get('url', '')`) plus an opaque
payload standing for the entry's pass-through fields. -/
structure Resource where
  url? : Option String
  payload : Nat
deriving DecidableEq

/-- The deduplication key: `resource.get('url', '').strip().lower()`. -/
def normUrl (r : Resource) : String :=
  String.mk (lowerL (stripL (r.url?.getD "").data))

/-- Loop of `ResourceLoader.deduplicate_resources`, with the `seen_urls` set
modelled as the list of keys seen so far. -/
def dedupGo : List Resource → List String → List Resource
  | [], _ => []
  | r :: rs, seen =>
    if normUrl r ∈ seen then dedupGo rs seen
    else r :: dedupGo rs (normUrl r :: seen)

/-- `ResourceLoader.deduplicate_resources`. -/
def deduplicateResources (rs : List Resource) : List Resource := dedupGo rs []

/-! ## TypeDetector (`core/detector.py`)

`detect_type` goes through `urllib.parse.urlparse`, which we embed following
CPython's `urlsplit`: strip `\t\r\n`, split a scheme when the prefix before
the first `:` is alphanumeric-ish, take the netloc after `//` up to `/?#`
(raising `ValueError` on an unmatched square bracket — the "Invalid IPv6
URL" check), then split fragment and query; `urlparse` additionally drops
`;params` from the last path segment. -/

structure UrlParsed where
  scheme : List Char
  netloc : List Char
  path : List Char
  query : List Char
  fragment : List Char

def schemeCharB (c : Char) : Bool :=
  c.isAlpha || c.isDigit || c == '+' || c == '-' || c == '.'

/-- Python `s.split(sep, 1)` given that `sep` occurs in `s`. -/
def splitFirstL (sep : Char) (cs : List Char) : List Char × List Char :=
  let before := cs.takeWhile (fun c => !(c == sep))
  (before, cs.drop (before.length + 1))

/-- Index of the last occurrence of `c0` (callers guarantee one exists). -/
def lastIdxOf (c0 : Char) (cs : List Char) : Nat :=
  (cs.foldl (fun (st : Nat × Nat) c => (st.1 + 1, if c == c0 then st.1 else st.2)) (0, 0)).2

/-- First index `≥ start` satisfying `p`. -/
def findIdxFrom (p : Char → Bool) (start : Nat) (cs : List Char) : Option Nat :=
  match (cs.drop start).findIdx? p with
  | some j => some (start + j)
  | none => none

/-- CPython `urllib.parse._splitparams`, keeping only the path part (callers
guarantee `;` occurs). -/
def splitParamsL (p : List Char) : List Char :=
  if p.any (fun c => c == '/') then
    match findIdxFrom (fun c => c == ';') (lastIdxOf '/' p) p with
    | some i => p.take i
    | none => p
  else p.take ((p.findIdx? (fun c => c == ';')).getD p.length)

/-- CPython `urllib.parse.urlsplit` followed by the params split of
`urlparse`.  `Except.error ()` models the `ValueError("Invalid IPv6 URL")`
raise.  (`_checknetloc`'s NFKC check only concerns non-ASCII netlocs and is
not modelled.) -/
def urlparseL (url0 : List Char) : Except Unit UrlParsed :=
  let url := url0.filter (fun c => !(c == '\t' || c == '\r' || c == '\n'))
  let pre := url.takeWhile (fun c => !(c == ':'))
  let hasScheme : Bool := pre.length < url.length && !pre.isEmpty &&
    (match pre.head? with
     | some c => c.isAlpha
     | none => false) && pre.all schemeCharB
  let scheme := if hasScheme then lowerL pre else []
  let rest := if hasScheme then url.drop (pre.length + 1) else url
  let hasNetloc : Bool := match rest with
    | '/' :: '/' :: _ => true
    | _ => false
  let afterSlashes := rest.drop 2
  let netloc :=
    if hasNetloc then afterSlashes.takeWhile (fun c => !(c == '/' || c == '?' || c == '\x23'))
    else []
  let rest2 := if hasNetloc then afterSlashes.drop netloc.length else rest
  if ('[' ∈ netloc ∧ ']' ∉ netloc) ∨ (']' ∈ netloc ∧ '[' ∉ netloc) then Except.error ()
  else
    let fragPair :=
      if rest2.any (fun c => c == '\x23') then splitFirstL '\x23' rest2 else (rest2, [])
    let queryPair :=
      if fragPair.1.any (fun c => c == '?') then splitFirstL '?' fragPair.1 else (fragPair.1, [])
    let path :=
      if queryPair.1.any (fun c => c == ';') then splitParamsL queryPair.1 else queryPair.1
    Except.ok ⟨scheme, netloc, path, queryPair.2, fragPair.2⟩

/-- `TypeDetector.is_github`. -/
def isGithubB (domain path : List Char) : Bool :=
  containsSubL ("github.com").data domain && decide (2 ≤ countCharL '/' path)

/-- `TypeDetector.is_youtube`. -/
def isYoutubeB (domain path : List Char) : Bool :=
  (containsSubL ("youtube.com").data domain && containsSubL ("/watch").data path) ||
    containsSubL ("youtu.be").data domain

def blogIndicators : List String :=
  ["medium.com", "dev.to", "substack.com", "hashnode", "blog.", "blogs.",
   "/blog/", "/post/", "/article/"]

/-- `TypeDetector.is_blog`. -/
def isBlogB (domain path : List Char) : Bool :=
  blogIndicators.any (fun ind => containsSubL ind.data domain || containsSubL ind.data path)

/-- Non-empty path segments: `[p for p in parsed.path.split('/') if p]`. -/
def pathSegs (p : List Char) : List (List Char) :=
  (splitOnCharL '/' p).filter (fun s => !s.isEmpty)

/-- Metadata of `TypeDetector.parse_github_url` from the parsed URL: the
fixed `domain` key plus `owner`/`repo`/`full_name` when the path has at
least two non-empty segments.  Key order follows the Python dict's insertion
order. -/
def githubMeta (pr : UrlParsed) : List (String × String) :=
  match pathSegs pr.path with
  | owner :: repo :: _ =>
    [("domain", "github.com"), ("owner", String.mk owner), ("repo", String.mk repo),
     ("full_name", String.mk (owner ++ '/' :: repo))]
  | _ => [("domain", "github.com")]

/-- `TypeDetector.parse_github_url` (re-parses the URL, so it can raise). -/
def parseGithubUrlE (url : List Char) : Except Unit (List (String × String)) :=
  match urlparseL url with
  | Except.error e => Except.error e
  | Except.ok pr => Except.ok (githubMeta pr)

/-- `re.search(r'[?&]v=([^&]+)', url)`: first `?`/`&` followed by `v=` and a
non-empty run of non-`&` characters; returns the capture. -/
def searchVParam : List Char → Option (List Char)
  | [] => none
  | c :: rest =>
    if c == '?' || c == '&' then
      match rest with
      | 'v' :: '=' :: tail =>
        let cap := tail.takeWhile (fun x => !(x == '&'))
        if cap = [] then searchVParam rest else some cap
      | _ => searchVParam rest
    else searchVParam rest

/-- Metadata of `TypeDetector.parse_youtube_url`: fixed `domain`, plus a
`video_id` from the `v` query parameter (`youtube.com` in the raw netloc) or
the first path segment (`youtu.be`). -/
def youtubeMeta (url : List Char) (pr : UrlParsed) : List (String × String) :=
  if containsSubL ("youtube.com").data pr.netloc then
    match searchVParam url with
    | some vid => [("domain", "youtube.com"), ("video_id", String.mk vid)]
    | none => [("domain", "youtube.com")]
  else if containsSubL ("youtu.be").data pr.netloc then
    match pathSegs pr.path with
    | seg :: _ => [("domain", "youtube.com"), ("video_id", String.mk seg)]
    | [] => [("domain", "youtube.com")]
  else [("domain", "youtube.com")]

/-- `TypeDetector.parse_youtube_url` (re-parses the URL, so it can raise). -/
def parseYoutubeUrlE (url : List Char) : Except Unit (List (String × String)) :=
  match urlparseL url with
  | Except.error e => Except.error e
  | Except.ok pr => Except.ok (youtubeMeta url pr)

/-- Body of `TypeDetector.detect_type` on the stripped URL `u`: parse it,
test the categories in order (github, youtube, blog, article-default) and
build the matching metadata.  (Python binds `domain`/`path` to the
lowercased netloc/path once; they are inlined here — the computation is
pure.)  The per-type occurrence counters are run statistics not touched by
any claim and are not modelled. -/
def detectParsed (u : List Char) : Except Unit (String × List (String × String)) :=
  match urlparseL u with
  | Except.error e => Except.error e
  | Except.ok pr =>
    if isGithubB (lowerL pr.netloc) (lowerL pr.path) then
      match parseGithubUrlE u with
      | Except.error e => Except.error e
      | Except.ok md => Except.ok ("github-repo", md)
    else if isYoutubeB (lowerL pr.netloc) (lowerL pr.path) then
      match parseYoutubeUrlE u with
      | Except.error e => Except.error e
      | Except.ok md => Except.ok ("youtube-video", md)
    else if isBlogB (lowerL pr.netloc) (lowerL pr.path) then
      Except.ok ("blog-post", [("domain", String.mk (lowerL pr.netloc))])
    else Except.ok ("article", [("domain", String.mk (lowerL pr.netloc))])

/-- `TypeDetector.detect_type` (`url = url.strip()` first).  `Except.error ()`
is the `ValueError` that `urlparse` can raise. -/
def detectTypeE (url : String) : Except Unit (String × List (String × String)) :=
  detectParsed (stripL url.data)

/-! ## StorageManager (`core/storage.py`) -/

/-- Decimal digit character. -/
def digitCharOf : Nat → Char
  | 0 => '0'
  | 1 => '1'
  | 2 => '2'
  | 3 => '3'
  | 4 => '4'
  | 5 => '5'
  | 6 => '6'
  | 7 => '7'
  | 8 => '8'
  | _ => '9'

/-- Decimal rendering of a natural number (fuelled so that it is structural;
`natToChars` supplies enough fuel). -/
def natToCharsAux : Nat → Nat → List Char
  | 0, _ => []
  | fuel + 1, n => if n < 10 then [digitCharOf n] else natToCharsAux fuel (n / 10) ++ [digitCharOf (n % 10)]

/-- Python `str(n)` for a natural number. -/
def natToChars (n : Nat) : List Char := natToCharsAux (n + 1) n

def natStr (n : Nat) : String := String.mk (natToChars n)

/-- `StorageManager._determine_category`'s mapping table. -/
def categoryMap : List (String × String) :=
  [("github-repo", "github-repos"), ("youtube-video", "youtube-videos"),
   ("blog-post", "blog-posts"), ("article", "articles"), ("unknown", "other")]

/-- `StorageManager._determine_category`. -/
def determineCategory (rt : String) : String := (categoryMap.lookup rt).getD "other"

/-- Regex class `\w` (ASCII model): letters, digits, underscore. -/
def wordCharB (c : Char) : Bool := c.isAlphanum || c == '_'

/-- Characters kept by `re.sub(r'[^\w\s-]', '', slug)`. -/
def keepSlugChar (c : Char) : Bool := wordCharB c || pySpace c || c == '-'

/-- Characters collapsed by `re.sub(r'[\s_-]+', '-', slug)`. -/
def runCharB (c : Char) : Bool := pySpace c || c == '_' || c == '-'

/-- `re.sub(r'[\s_-]+', '-', slug)`: replace each maximal run of
whitespace/underscore/hyphen by a single hyphen.  The flag records whether
the previous character was part of a run. -/
def collapseRunsGo : List Char → Bool → List Char
  | [], _ => []
  | c :: cs, inRun =>
    if runCharB c then
      if inRun then collapseRunsGo cs true else '-' :: collapseRunsGo cs true
    else c :: collapseRunsGo cs false

/-- Python `s.strip('-')`. -/
def stripHyphens (cs : List Char) : List Char :=
  ((cs.dropWhile (fun c => c == '-')).reverse.dropWhile (fun c => c == '-')).reverse

/-- Python `s.rstrip('-')`. -/
def rstripHyphens (cs : List Char) : List Char :=
  (cs.reverse.dropWhile (fun c => c == '-')).reverse

/-- The slug pipeline of `StorageManager._generate_filename` (max length
50): lower-case, drop non-word/space/hyphen characters, collapse runs to a
hyphen, strip hyphens, truncate, default `untitled`. -/
def slugOf (title : String) : List Char :=
  let s1 := lowerL title.data
  let s2 := s1.filter keepSlugChar
  let s3 := collapseRunsGo s2 false
  let s4 := stripHyphens s3
  let s5 := if 50 < s4.length then rstripHyphens (s4.take 50) else s4
  if s5 = [] then ("untitled").data else s5

/-- `f"{slug}.md"`. -/
def mdName (slug : List Char) : String := String.mk slug ++ ".md"

/-- `f"{slug}-{counter}.md"`. -/
def candName (slug : List Char) (counter : Nat) : String :=
  String.mk slug ++ "-" ++ natStr counter ++ ".md"

/-- `base_path / category / filename` rendered as a string. -/
def filePathOf (base category fname : String) : String :=
  base ++ "/" ++ category ++ "/" ++ fname

/-- One entry of the processing log. -/
structure LogEntry where
  url : String
  status : String
  processedAt : String
  outputFile : Option String
  error : Option String

/-- The in-memory processing log. -/
structure ProcessingLog where
  lastUpdated : String
  totalProcessed : Nat
  successful : Nat
  failed : Nat
  resources : List LogEntry

/-- `StorageManager` state: base path, the filesystem slice it owns (path →
file content), the in-memory log and the `saved`/`failed`/`total_bytes`
stats. -/
structure StorageState where
  basePath : String
  files : List (String × String)
  log : ProcessingLog
  saved : Nat
  failedSaves : Nat
  totalBytes : Nat

/-- `Path.exists` against the modelled filesystem. -/
def fileExistsB (files : List (String × String)) (p : String) : Bool :=
  files.any (fun e => e.1 == p)

/-- `Path.write_text`: overwrite when the path exists, create otherwise. -/
def writeFile (files : List (String × String)) (p c : String) : List (String × String) :=
  if fileExistsB files p then files.map (fun e => if e.1 == p then (p, c) else e)
  else files ++ [(p, c)]

/-- Content stored at a path. -/
def readFile (files : List (String × String)) (p : String) : Option String :=
  (files.find? (fun e => e.1 == p)).map (fun e => e.2)

/-- The `while file_path.exists()` loop of `_generate_filename`, trying
`slug-counter.md`, `slug-(counter+1).md`, …  The loop always terminates
because the filesystem is finite; the fuel (`files.length + 1` at the call
site) is enough to reach a free name, which `generateFilename_fresh` proves. -/
def genLoop (files : List (String × String)) (base category : String) (slug : List Char) :
    Nat → Nat → String
  | 0, counter => candName slug counter
  | fuel + 1, counter =>
    if fileExistsB files (filePathOf base category (candName slug counter)) then
      genLoop files base category slug fuel (counter + 1)
    else candName slug counter

/-- `StorageManager._generate_filename`: slug plus `.md`, with `-2`, `-3`, …
appended while the candidate path exists. -/
def generateFilename (files : List (String × String)) (base : String) (title : String)
    (rt : String) : String :=
  let slug := slugOf title
  let category := determineCategory rt
  if fileExistsB files (filePathOf base category (mdName slug)) then
    genLoop files base category slug (files.length + 1) 2
  else mdName slug

/-- Extracted-content dictionary as `save_content` reads it: every access
goes through `.get` with a default, so each field is optional.  The nested
`metadata` dict is flattened (each of its keys is read independently with
its own default, so this is behaviour-equivalent). -/
structure Extracted where
  title? : Option String
  description? : Option String
  content? : Option String
  domain? : Option String
  wordCount? : Option Nat
  extractedAt? : Option String
  extractor? : Option String

/-- `StorageManager._format_markdown`: YAML frontmatter followed by the
document body, exactly as the Python f-strings build them.  `now` stands for
`datetime.now().isoformat()`. -/
def formatMarkdown (d : Extracted) (rt url now : String) : String :=
  let title := d.title?.getD "Untitled"
  let description := d.description?.getD "No description available"
  let content := d.content?.getD ""
  let domain := d.domain?.getD "unknown"
  let wc := natStr (d.wordCount?.getD 0)
  let extractedAt := d.extractedAt?.getD now
  let extractor := d.extractor?.getD "unknown"
  "---\ntitle: \"" ++ title ++ "\"\nsource: " ++ url ++ "\ntype: " ++ rt ++
    "\nextracted: " ++ now ++ "\ndomain: " ++ domain ++ "\nword_count: " ++ wc ++
    "\nprocessing_status: completed\n---\n\n" ++
    "# " ++ title ++ "\n\n## Description\n" ++ description ++ "\n\n## Content\n\n" ++
    content ++ "\n\n---\n\n## Metadata\n\n**Source:** [" ++ url ++ "](" ++ url ++
    ")\n**Type:** " ++ rt ++ "\n**Extracted:** " ++ extractedAt ++ "\n**Extractor:** " ++
    extractor ++ "\n**Word Count:** " ++ wc ++ "\n"

/-- `StorageManager._update_processing_log`: append one entry, then recompute
`total_processed`, `successful` and `failed` from the entry sequence. -/
def updateProcessingLog (log : ProcessingLog) (url status : String)
    (outputFile : Option String) (error : Option String) (now : String) : ProcessingLog :=
  let rs := log.resources ++ [⟨url, status, now, outputFile, error⟩]
  { lastUpdated := now
    totalProcessed := rs.length
    successful := (rs.filter (fun r => r.status == "completed")).length
    failed := (rs.filter (fun r => r.status == "failed")).length
    resources := rs }

/-- `StorageManager.save_content`.  The whole body runs inside
`try/except Exception`, so the function returns `some path` or `none` and
never raises.  `writeErr` is the I/O oracle for `file_path.write_text`:
`none` means the write succeeds, `some e` means it raises with message `e`
(the only fallible step in the modelled state).  Both branches append
exactly one log entry. -/
def saveContent (s : StorageState) (d : Extracted) (rt url now : String)
    (writeErr : Option String) : Option String × StorageState :=
  let category := determineCategory rt
  let filename := generateFilename s.files s.basePath (d.title?.getD "untitled") rt
  let path := filePathOf s.basePath category filename
  let markdown := formatMarkdown d rt url now
  match writeErr with
  | none =>
    (some path,
      { s with
        files := writeFile s.files path markdown
        saved := s.saved + 1
        totalBytes := s.totalBytes + markdown.length
        log := updateProcessingLog s.log url "completed" (some path) none now })
  | some e =>
    (none,
      { s with
        failedSaves := s.failedSaves + 1
        log := updateProcessingLog s.log url "failed" none (some e) now })

/-! ## Orchestrator (`main.py`, `SmartExtractor._process_resource`) -/

/-- Per-run counters of the orchestrator's `self.stats`. -/
structure RunStats where
  successful : Nat
  failed : Nat

/-- `SmartExtractor._process_resource`: everything from type detection to the
save runs inside one `try`; any raise (from `detect_type` or the extractor)
increments `failed` and the loop moves on — `save_content` itself never
raises and decides `successful` vs `failed` by its return value.  The
extractor is an oracle `extract` from the (stripped) URL to either content
or a raised error; `writeErr` is the storage write oracle and `now` the
timestamp for this step. -/
def processUrl (extract : String → Except String Extracted) (writeErr : Option String)
    (now : String) (acc : RunStats × StorageState) (url : String) : RunStats × StorageState :=
  match detectTypeE url with
  | Except.error _ => ({ acc.1 with failed := acc.1.failed + 1 }, acc.2)
  | Except.ok (rtype, _md) =>
    match extract url with
    | Except.error _ => ({ acc.1 with failed := acc.1.failed + 1 }, acc.2)
    | Except.ok d =>
      match saveContent acc.2 d rtype url now writeErr with
      | (some _, st) => ({ acc.1 with successful := acc.1.successful + 1 }, st)
      | (none, st) => ({ acc.1 with failed := acc.1.failed + 1 }, st)

def processResource (extract : String → Except String Extracted) (writeErr : Option String)
    (now : String) (acc : RunStats × StorageState) (r : Resource) : RunStats × StorageState :=
  processUrl extract writeErr now acc (String.mk (stripL (r.url?.getD "").data))

/-- The orchestrator's per-resource loop over the batch. -/
def processAll (extract : String → Except String Extracted) (writeErr : Option String)
    (now : String) (init : RunStats × StorageState) (rs : List Resource) :
    RunStats × StorageState :=
  rs.foldl (processResource extract writeErr now) init

/-- Whether an `Except` computation succeeded. -/
def exceptOkB {ε α : Type} : Except ε α → Bool
  | Except.ok _ => true
  | Except.error _ => false

/-- Whether processing resource `r` reaches `save_content` (detection and
extraction both succeed) — exactly the steps that append a log entry. -/
def saveAttemptedB (extract : String → Except String Extracted) (r : Resource) : Bool :=
  exceptOkB (detectTypeE (String.mk (stripL (r.url?.getD "").data))) &&
    exceptOkB (extract (String.mk (stripL (r.url?.getD "").data)))

/-- Whether a JSON value is an array or object — exactly the shapes
`load_resources` accepts from a strict parse; anything else hits the
uncaught `raise ValueError("Unexpected JSON structure")`. -/
def isContainerB : Json → Bool
  | Json.arr _ => true
  | Json.obj _ => true
  | _ => false

/-- The concatenation of manifest fragments, each written as its body
followed by the closing `]`. -/
def fragsContent (pairs : List (List Char × List Json)) : List Char :=
  (pairs.map (fun p => p.1 ++ [']'])).flatten

/-- Decimal value of a digit character. -/
def digitVal (c : Char) : Nat := c.toNat - 48

/-- Numeric value of a digit string (used to invert `natToChars`). -/
def valOf (cs : List Char) : Nat := cs.foldl (fun acc c => 10 * acc + digitVal c) 0

/-! ### Concrete fixtures for witnesses and counterexamples -/

def demoExtracted : Extracted :=
  ⟨some "Hello World!!!", none, some "body one", none, none, none, none⟩

def demoExtracted2 : Extracted :=
  ⟨some "Hello World!!!", none, some "body two", none, none, none, none⟩

def emptyStorage : StorageState := ⟨"knowledge", [], ⟨"t0", 0, 0, 0, []⟩, 0, 0, 0⟩

/-- A storage state whose log was loaded from a previous run with one
completed entry (counts consistent with the entry sequence). -/
def preloadedStorage : StorageState :=
  ⟨"knowledge", [], ⟨"t0", 1, 1, 0, [⟨"https://old/u", "completed", "t0", none, none⟩]⟩, 0, 0, 0⟩

def c1r1 : Resource := ⟨some "https://a.example/x", 0⟩

def c1r2 : Resource := ⟨some "https://b.example/y", 0⟩

def c1r3 : Resource := ⟨some "https://c.example/z", 0⟩

/-- Extractor oracle that raises exactly for resource 2's URL. -/
def c1Extract : String → Except String Extracted := fun u =>
  if u = "https://b.example/y" then Except.error "boom" else Except.ok demoExtracted

/-- A manifest fragment `[{"u":"x"}` (body of a one-entry array, without its
closing bracket) paired with its entries. -/
def c3frag1 : List Char × List Json :=
  (("[\x7b\"u\":\"x\"\x7d").data, [Json.obj [("u", Json.str "x")]])

/-- A manifest fragment `[{"u":"y"}` paired with its entries. -/
def c3frag2 : List Char × List Json :=
  (("[\x7b\"u\":\"y\"\x7d").data, [Json.obj [("u", Json.str "y")]])

/-! ## Helper lemmas -/

theorem valOf_append_digit (cs : List Char) (c : Char) :
    valOf (cs ++ [c]) = 10 * valOf cs + digitVal c := by
  simp [valOf, List.foldl_append]

theorem digitVal_digitCharOf {n : Nat} (h : n < 10) : digitVal (digitCharOf n) = n := by
  interval_cases n <;> rfl

theorem valOf_natToCharsAux : ∀ fuel n, n < fuel → valOf (natToCharsAux fuel n) = n := by
  intro fuel
  induction fuel with
  | zero => intro n h; omega
  | succ f ih =>
    intro n h
    by_cases h10 : n < 10
    · simp only [natToCharsAux, if_pos h10]
      show valOf ([] ++ [digitCharOf n]) = n
      rw [valOf_append_digit, digitVal_digitCharOf h10]
      simp [valOf]
    · simp only [natToCharsAux, if_neg h10]
      have hdiv : n / 10 < f := by
        have h1 : n / 10 < n := Nat.div_lt_self (by omega) (by omega)
        omega
      rw [valOf_append_digit, ih _ hdiv, digitVal_digitCharOf (Nat.mod_lt n (by omega))]
      omega

theorem natToChars_injective : Function.Injective natToChars := by
  intro a b h
  have ha := valOf_natToCharsAux (a + 1) a (Nat.lt_succ_self a)
  have hb := valOf_natToCharsAux (b + 1) b (Nat.lt_succ_self b)
  unfold natToChars at h
  rw [← ha, ← hb, h]

theorem candName_data (slug : List Char) (k : Nat) :
    (candName slug k).data = slug ++ '-' :: (natToChars k ++ ['.', 'm', 'd']) := by
  simp [candName, natStr, String.data_append]

theorem candName_injective (slug : List Char) : Function.Injective (candName slug) := by
  intro a b h
  have hd := congrArg String.data h
  rw [candName_data, candName_data] at hd
  have h1 := List.append_cancel_left hd
  injection h1 with _ h2
  exact natToChars_injective (List.append_cancel_right h2)

theorem filePathOf_injective (base category : String) :
    Function.Injective (filePathOf base category) := by
  intro a b h
  have hd := congrArg String.data h
  simp only [filePathOf, String.data_append, List.append_assoc] at hd
  have h1 := List.append_cancel_left hd
  have h2 := List.append_cancel_left h1
  have h3 := List.append_cancel_left h2
  have h4 := List.append_cancel_left h3
  exact String.ext h4

theorem fileExistsB_iff_mem (files : List (String × String)) (p : String) :
    fileExistsB files p = true ↔ p ∈ files.map Prod.fst := by
  simp only [fileExistsB, List.any_eq_true, List.mem_map, beq_iff_eq]

theorem exists_fresh_in_window (paths : List String) (f : Nat → String)
    (hf : Function.Injective f) (counter : Nat) :
    ∃ i, i ≤ paths.length ∧ f (counter + i) ∉ paths := by
  by_contra hcon
  push_neg at hcon
  have hsub : ∀ x ∈ (List.range (paths.length + 1)).map (fun i => f (counter + i)), x ∈ paths := by
    intro x hx
    obtain ⟨i, hi, rfl⟩ := List.mem_map.mp hx
    exact hcon i (by simpa using Nat.lt_succ_iff.mp (List.mem_range.mp hi))
  have hnodup : ((List.range (paths.length + 1)).map (fun i => f (counter + i))).Nodup := by
    refine List.Nodup.map ?_ (List.nodup_range _)
    intro a b hab
    have := hf hab
    omega
  have hcard : ((List.range (paths.length + 1)).map (fun i => f (counter + i))).toFinset.card =
      paths.length + 1 := by
    rw [List.toFinset_card_of_nodup hnodup]; simp
  have hle : ((List.range (paths.length + 1)).map (fun i => f (counter + i))).toFinset.card ≤
      paths.toFinset.card := by
    apply Finset.card_le_card
    intro x hx
    exact List.mem_toFinset.mpr (hsub x (List.mem_toFinset.mp hx))
  have := List.toFinset_card_le paths
  omega

theorem genLoop_fresh (files : List (String × String)) (base category : String)
    (slug : List Char) :
    ∀ fuel counter,
      (∃ i, i < fuel ∧
        fileExistsB files (filePathOf base category (candName slug (counter + i))) = false) →
      fileExistsB files (filePathOf base category (genLoop files base category slug fuel counter)) =
        false := by
  intro fuel
  induction fuel with
  | zero =>
    rintro counter ⟨i, hi, _⟩
    omega
  | succ f ih =>
    rintro counter ⟨i, hi, hfree⟩
    rw [genLoop]
    by_cases hx : fileExistsB files (filePathOf base category (candName slug counter)) = true
    · rw [if_pos hx]
      apply ih
      match i, hi, hfree with
      | 0, _, hfree => rw [Nat.add_zero] at hfree; rw [hfree] at hx; cases hx
      | j + 1, hj, hfree =>
        exact ⟨j, by omega, by rw [show counter + 1 + j = counter + (j + 1) by omega]; exact hfree⟩
    · rw [if_neg hx]
      exact Bool.not_eq_true _ ▸ hx

theorem generateFilename_fresh (files : List (String × String)) (base title rt : String) :
    fileExistsB files
      (filePathOf base (determineCategory rt) (generateFilename files base title rt)) = false := by
  rw [generateFilename]
  by_cases h0 :
    fileExistsB files (filePathOf base (determineCategory rt) (mdName (slugOf title))) = true
  · rw [if_pos h0]
    apply genLoop_fresh
    have hinj : Function.Injective
        (fun k => filePathOf base (determineCategory rt) (candName (slugOf title) k)) :=
      fun a b hab => candName_injective _ (filePathOf_injective _ _ hab)
    obtain ⟨i, hi, hfree⟩ :=
      exists_fresh_in_window (files.map Prod.fst)
        (fun k => filePathOf base (determineCategory rt) (candName (slugOf title) k)) hinj 2
    refine ⟨i, by simpa using Nat.lt_succ_iff.mpr hi, ?_⟩
    rw [← Bool.not_eq_true]
    intro hmem
    exact hfree ((fileExistsB_iff_mem _ _).mp hmem)
  · rw [if_neg h0]
    exact Bool.not_eq_true _ ▸ h0

theorem writeFile_of_fresh {files : List (String × String)} {p : String} (c : String)
    (h : fileExistsB files p = false) : writeFile files p c = files ++ [(p, c)] := by
  rw [writeFile, h]
  simp

theorem readFile_append_self {files : List (String × String)} {p : String} (c : String)
    (h : fileExistsB files p = false) : readFile (files ++ [(p, c)]) p = some c := by
  rw [readFile, List.find?_append]
  have hnone : files.find? (fun e => e.1 == p) = none := by
    rw [List.find?_eq_none]
    intro e he hbeq
    have : fileExistsB files p = true := List.any_eq_true.mpr ⟨e, he, hbeq⟩
    rw [h] at this; cases this
  rw [hnone]
  simp [List.find?]

theorem readFile_append_other {files : List (String × String)} {p q : String} (c : String)
    (h : q ≠ p) : readFile (files ++ [(p, c)]) q = readFile files q := by
  rw [readFile, List.find?_append, readFile]
  have hnone : List.find? (fun e => e.1 == q) [(p, c)] = none := by
    have hpq : (p == q) = false := beq_eq_false_iff_ne.mpr (Ne.symm h)
    simp [List.find?, hpq]
  rw [hnone]
  cases files.find? (fun e => e.1 == q) <;> simp

theorem fileExistsB_append_self (files : List (String × String)) (p c : String) :
    fileExistsB (files ++ [(p, c)]) p = true := by
  simp [fileExistsB]

theorem saveContent_none_eq (s : StorageState) (d : Extracted) (rt url now : String) :
    saveContent s d rt url now none =
      (some (filePathOf s.basePath (determineCategory rt)
          (generateFilename s.files s.basePath (d.title?.getD "untitled") rt)),
        { s with
          files := writeFile s.files
            (filePathOf s.basePath (determineCategory rt)
              (generateFilename s.files s.basePath (d.title?.getD "untitled") rt))
            (formatMarkdown d rt url now)
          saved := s.saved + 1
          totalBytes := s.totalBytes + (formatMarkdown d rt url now).length
          log := updateProcessingLog s.log url "completed"
            (some (filePathOf s.basePath (determineCategory rt)
              (generateFilename s.files s.basePath (d.title?.getD "untitled") rt))) none now }) :=
  rfl

theorem saveContent_some_eq (s : StorageState) (d : Extracted) (rt url now e : String) :
    saveContent s d rt url now (some e) =
      (none,
        { s with
          failedSaves := s.failedSaves + 1
          log := updateProcessingLog s.log url "failed" none (some e) now }) :=
  rfl

theorem updateProcessingLog_resources (log : ProcessingLog) (url status : String)
    (outputFile error : Option String) (now : String) :
    (updateProcessingLog log url status outputFile error now).resources =
      log.resources ++ [⟨url, status, now, outputFile, error⟩] :=
  rfl

theorem saveContent_log_shape (s : StorageState) (d : Extracted) (rt url now : String)
    (writeErr : Option String) :
    ∃ e : LogEntry,
      (saveContent s d rt url now writeErr).2.log.resources = s.log.resources ++ [e] ∧
      e.url = url ∧
      e.status = (match writeErr with | none => "completed" | some _ => "failed") := by
  cases writeErr with
  | none =>
    exact ⟨_, by rw [saveContent_none_eq]; exact updateProcessingLog_resources _ _ _ _ _ _,
      rfl, rfl⟩
  | some err =>
    exact ⟨_, by rw [saveContent_some_eq]; exact updateProcessingLog_resources _ _ _ _ _ _,
      rfl, rfl⟩

theorem saveContent_counts_recomputed (s : StorageState) (d : Extracted) (rt url now : String)
    (writeErr : Option String) :
    (saveContent s d rt url now writeErr).2.log.totalProcessed =
        (saveContent s d rt url now writeErr).2.log.resources.length ∧
      (saveContent s d rt url now writeErr).2.log.successful =
        ((saveContent s d rt url now writeErr).2.log.resources.filter
          (fun r => r.status == "completed")).length ∧
      (saveContent s d rt url now writeErr).2.log.failed =
        ((saveContent s d rt url now writeErr).2.log.resources.filter
          (fun r => r.status == "failed")).length := by
  cases writeErr with
  | none => exact ⟨rfl, rfl, rfl⟩
  | some err => exact ⟨rfl, rfl, rfl⟩

/-- C6.  `save_content` is total (it returns `some path` exactly when the
write succeeds and `none` when it fails — the `try/except` swallows the
error), appends exactly one log entry on every call, and after the append
the three aggregate counters equal the values recomputed from the entry
sequence. -/
theorem c6_save_log_invariants (s : StorageState) (d : Extracted) (rt url now : String)
    (writeErr : Option String) :
    ((saveContent s d rt url now writeErr).1.isSome ↔ writeErr = none) ∧
      (saveContent s d rt url now writeErr).2.log.resources.length =
        s.log.resources.length + 1 ∧
      (∃ e : LogEntry,
        (saveContent s d rt url now writeErr).2.log.resources = s.log.resources ++ [e] ∧
        e.url = url ∧
        e.status = (match writeErr with | none => "completed" | some _ => "failed")) ∧
      (saveContent s d rt url now writeErr).2.log.totalProcessed =
        (saveContent s d rt url now writeErr).2.log.resources.length ∧
      (saveContent s d rt url now writeErr).2.log.successful =
        ((saveContent s d rt url now writeErr).2.log.resources.filter
          (fun r => r.status == "completed")).length ∧
      (saveContent s d rt url now writeErr).2.log.failed =
        ((saveContent s d rt url now writeErr).2.log.resources.filter
          (fun r => r.status == "failed")).length := by
  obtain ⟨e, he, heu, hes⟩ := saveContent_log_shape s d rt url now writeErr
  obtain ⟨h1, h2, h3⟩ := saveContent_counts_recomputed s d rt url now writeErr
  refine ⟨?_, by rw [he]; simp, ⟨e, he, heu, hes⟩, h1, h2, h3⟩
  cases writeErr with
  | none => rw [saveContent_none_eq]; simp
  | some err => rw [saveContent_some_eq]; simp

theorem c6_save_log_invariants_witness :
    (saveContent emptyStorage demoExtracted ("article") ("https://a/x") ("t1") none).1.isSome ↔
      (none : Option String) = none :=
  (c6_save_log_invariants emptyStorage demoExtracted ("article") ("https://a/x") ("t1") none).1

/-- C2.  Two consecutive saves with the same title and resource type (write
succeeding): the second generated filename is distinct from the first, the
first file is not overwritten, and afterwards each of the two files holds
the content of its own call. -/
theorem c2_collision_free_save (s : StorageState) (d1 d2 : Extracted) (rt u1 u2 n1 n2 : String)
    (_htitle : d1.title? = d2.title?) :
    ∃ p1 p2,
      (saveContent s d1 rt u1 n1 none).1 = some p1 ∧
      (saveContent (saveContent s d1 rt u1 n1 none).2 d2 rt u2 n2 none).1 = some p2 ∧
      p1 ≠ p2 ∧
      readFile (saveContent (saveContent s d1 rt u1 n1 none).2 d2 rt u2 n2 none).2.files p1 =
        some (formatMarkdown d1 rt u1 n1) ∧
      readFile (saveContent (saveContent s d1 rt u1 n1 none).2 d2 rt u2 n2 none).2.files p2 =
        some (formatMarkdown d2 rt u2 n2) := by
  rw [saveContent_none_eq s d1 rt u1 n1]
  have hfresh1 := generateFilename_fresh s.files s.basePath (d1.title?.getD "untitled") rt
  rw [writeFile_of_fresh (formatMarkdown d1 rt u1 n1) hfresh1]
  rw [saveContent_none_eq]
  set p1 := filePathOf s.basePath (determineCategory rt)
    (generateFilename s.files s.basePath (d1.title?.getD "untitled") rt) with hp1
  set files1 := s.files ++ [(p1, formatMarkdown d1 rt u1 n1)] with hfiles1
  have hfresh2 := generateFilename_fresh files1 s.basePath (d2.title?.getD "untitled") rt
  set p2 := filePathOf s.basePath (determineCategory rt)
    (generateFilename files1 s.basePath (d2.title?.getD "untitled") rt) with hp2
  have hp1mem : fileExistsB files1 p1 = true := fileExistsB_append_self _ _ _
  have hne : p1 ≠ p2 := by
    intro hcon
    rw [hcon] at hp1mem
    rw [hp1mem] at hfresh2
    cases hfresh2
  rw [writeFile_of_fresh (formatMarkdown d2 rt u2 n2) hfresh2]
  exact ⟨p1, p2, rfl, rfl, hne,
    by rw [readFile_append_other _ hne, readFile_append_self _ hfresh1],
    readFile_append_self _ hfresh2⟩

theorem processResource_storage (extract : String → Except String Extracted)
    (we : Option String) (now : String) (acc : RunStats × StorageState) (r : Resource) :
    (saveAttemptedB extract r = false ∧ (processResource extract we now acc r).2 = acc.2) ∨
      (saveAttemptedB extract r = true ∧
        ∃ d rt, (processResource extract we now acc r).2 =
          (saveContent acc.2 d rt (String.mk (stripL (r.url?.getD "").data)) now we).2) := by
  unfold processResource processUrl saveAttemptedB
  cases hdet : detectTypeE (String.mk (stripL (r.url?.getD "").data)) with
  | error e => left; exact ⟨by rfl, rfl⟩
  | ok tm =>
    obtain ⟨t, md⟩ := tm
    cases hex : extract (String.mk (stripL (r.url?.getD "").data)) with
    | error e => left; exact ⟨by rfl, rfl⟩
    | ok d =>
      right
      refine ⟨by rfl, d, t, ?_⟩
      rcases hsave : saveContent acc.2 d t (String.mk (stripL (r.url?.getD "").data)) now we
        with ⟨o, st⟩
      simp only [hsave]
      cases o <;> rfl

/-- C7.  The processing log is append-only across a run: starting a batch
from a storage state whose loaded log has consistent counts, every loaded
entry is still present, unmodified, as a prefix of the final log; the final
entry count is the loaded count plus one per save attempt; and
`total_processed` equals the final entry count. -/
theorem c7_log_append_only (extract : String → Except String Extracted) (we : Option String)
    (now : String) (rs : List Resource) (stats : RunStats) (s : StorageState)
    (htp : s.log.totalProcessed = s.log.resources.length) :
    (∃ tail, (processAll extract we now (stats, s) rs).2.log.resources =
        s.log.resources ++ tail) ∧
      (processAll extract we now (stats, s) rs).2.log.resources.length =
        s.log.resources.length + (rs.filter (saveAttemptedB extract)).length ∧
      (processAll extract we now (stats, s) rs).2.log.totalProcessed =
        (processAll extract we now (stats, s) rs).2.log.resources.length := by
  induction rs generalizing stats s with
  | nil =>
    refine ⟨⟨[], by simp [processAll]⟩, by simp [processAll], ?_⟩
    simpa [processAll] using htp
  | cons r rs ih =>
    have hfold : processAll extract we now (stats, s) (r :: rs) =
        processAll extract we now (processResource extract we now (stats, s) r) rs := rfl
    rcases processResource_storage extract we now (stats, s) r with ⟨hatt, heq⟩ |
      ⟨hatt, d, rt, heq⟩
    · have hsplit : processResource extract we now (stats, s) r =
          ((processResource extract we now (stats, s) r).1, s) := Prod.ext rfl heq
      rw [hfold, hsplit]
      obtain ⟨⟨tail, htail⟩, hlen, htot⟩ :=
        ih (processResource extract we now (stats, s) r).1 s htp
      refine ⟨⟨tail, htail⟩, ?_, htot⟩
      rw [hlen, List.filter_cons_of_neg (by simp [hatt])]
    · obtain ⟨e, he, _, _⟩ :=
        saveContent_log_shape s d rt (String.mk (stripL (r.url?.getD "").data)) now we
      obtain ⟨hc1, _, _⟩ :=
        saveContent_counts_recomputed s d rt (String.mk (stripL (r.url?.getD "").data)) now we
      have hsplit : processResource extract we now (stats, s) r =
          ((processResource extract we now (stats, s) r).1,
            (saveContent s d rt (String.mk (stripL (r.url?.getD "").data)) now we).2) :=
        Prod.ext rfl heq
      rw [hfold, hsplit]
      obtain ⟨⟨tail, htail⟩, hlen, htot⟩ :=
        ih (processResource extract we now (stats, s) r).1
          (saveContent s d rt (String.mk (stripL (r.url?.getD "").data)) now we).2 hc1
      refine ⟨⟨e :: tail, by rw [htail, he, List.append_assoc]; rfl⟩, ?_, htot⟩
      rw [hlen, he, List.filter_cons_of_pos (by simp [hatt])]
      simp
      omega

theorem processResource_detect_fails (extract : String → Except String Extracted)
    (we : Option String) (now : String) (acc : RunStats × StorageState) (r : Resource)
    (err : Unit)
    (hd : detectTypeE (String.mk (stripL (r.url?.getD "").data)) = Except.error err) :
    processResource extract we now acc r = ({ acc.1 with failed := acc.1.failed + 1 }, acc.2) := by
  unfold processResource processUrl
  simp only [hd]

theorem processResource_extract_fails (extract : String → Except String Extracted)
    (we : Option String) (now : String) (acc : RunStats × StorageState) (r : Resource)
    (t : String) (md : List (String × String)) (err : String)
    (hd : detectTypeE (String.mk (stripL (r.url?.getD "").data)) = Except.ok (t, md))
    (he : extract (String.mk (stripL (r.url?.getD "").data)) = Except.error err) :
    processResource extract we now acc r = ({ acc.1 with failed := acc.1.failed + 1 }, acc.2) := by
  unfold processResource processUrl
  simp only [hd, he]

theorem processResource_save_ok (extract : String → Except String Extracted) (now : String)
    (acc : RunStats × StorageState) (r : Resource) (t : String) (md : List (String × String))
    (d : Extracted)
    (hd : detectTypeE (String.mk (stripL (r.url?.getD "").data)) = Except.ok (t, md))
    (he : extract (String.mk (stripL (r.url?.getD "").data)) = Except.ok d) :
    processResource extract none now acc r =
      ({ acc.1 with successful := acc.1.successful + 1 },
        (saveContent acc.2 d t (String.mk (stripL (r.url?.getD "").data)) now none).2) := by
  unfold processResource processUrl
  simp only [hd, he, saveContent_none_eq]

/-- C1 (amended).  With an extractor that raises for resource 2 of 3 (and
detection and both writes succeeding), every per-resource error is caught at
the orchestrator: processing reaches resource 3, and the run statistics end
with 2 successful and 1 failed.  The processing log, however, gains exactly
the two `completed` entries of the successful saves and no `failed` entry —
the extraction failure is counted only in the run statistics, because only
`save_content` appends log entries. -/
theorem c1_failure_isolation_amended
    (r1 r2 r3 : Resource) (extract : String → Except String Extracted) (now err : String)
    (s : StorageState) (d1 d3 : Extracted)
    (t1 t2 t3 : String) (md1 md2 md3 : List (String × String))
    (hd1 : detectTypeE (String.mk (stripL (r1.url?.getD "").data)) = Except.ok (t1, md1))
    (hd2 : detectTypeE (String.mk (stripL (r2.url?.getD "").data)) = Except.ok (t2, md2))
    (hd3 : detectTypeE (String.mk (stripL (r3.url?.getD "").data)) = Except.ok (t3, md3))
    (he1 : extract (String.mk (stripL (r1.url?.getD "").data)) = Except.ok d1)
    (he2 : extract (String.mk (stripL (r2.url?.getD "").data)) = Except.error err)
    (he3 : extract (String.mk (stripL (r3.url?.getD "").data)) = Except.ok d3) :
    (processAll extract none now (⟨0, 0⟩, s) [r1, r2, r3]).1.successful = 2 ∧
      (processAll extract none now (⟨0, 0⟩, s) [r1, r2, r3]).1.failed = 1 ∧
      (∃ e1 e3 : LogEntry,
        (processAll extract none now (⟨0, 0⟩, s) [r1, r2, r3]).2.log.resources =
          s.log.resources ++ [e1, e3] ∧
        e1.url = String.mk (stripL (r1.url?.getD "").data) ∧ e1.status = "completed" ∧
        e3.url = String.mk (stripL (r3.url?.getD "").data) ∧ e3.status = "completed") ∧
      ((processAll extract none now (⟨0, 0⟩, s) [r1, r2, r3]).2.log.resources.filter
          (fun e => e.status == "failed")).length =
        (s.log.resources.filter (fun e => e.status == "failed")).length := by
  have hfold : processAll extract none now (⟨0, 0⟩, s) [r1, r2, r3] =
      processResource extract none now
        (processResource extract none now
          (processResource extract none now (⟨0, 0⟩, s) r1) r2) r3 := rfl
  rw [hfold, processResource_save_ok extract now _ r1 t1 md1 d1 hd1 he1,
    processResource_extract_fails extract none now _ r2 t2 md2 err hd2 he2,
    processResource_save_ok extract now _ r3 t3 md3 d3 hd3 he3]
  obtain ⟨E1, hE1, hE1u, hE1s⟩ :=
    saveContent_log_shape s d1 t1 (String.mk (stripL (r1.url?.getD "").data)) now none
  obtain ⟨E3, hE3, hE3u, hE3s⟩ :=
    saveContent_log_shape (saveContent s d1 t1
      (String.mk (stripL (r1.url?.getD "").data)) now none).2 d3 t3
      (String.mk (stripL (r3.url?.getD "").data)) now none
  refine ⟨rfl, rfl, ⟨E1, E3, ?_, hE1u, hE1s, hE3u, hE3s⟩, ?_⟩
  · rw [hE3, hE1, List.append_assoc]
    rfl
  · rw [hE3, hE1, List.append_assoc, List.filter_append]
    have h1 : (E1.status == "failed") = false := by rw [hE1s]; rfl
    have h3 : (E3.status == "failed") = false := by rw [hE3s]; rfl
    simp [List.filter, h1, h3]

/-- C1 (counterexample to the claim as stated).  An extractor raising for
resource 2 of 3, all saves succeeding: the run statistics do show 2
successful and 1 failed, but the processing log ends the run with only the
2 `completed` entries and 0 entries of status `failed` — the extraction
failure is not converted into a failed `ProcessingLogEntry`, contradicting
the claimed "exactly 1 entry of status failed". -/
theorem c1_counterexample :
    (processAll c1Extract none "t1" (⟨0, 0⟩, emptyStorage) [c1r1, c1r2, c1r3]).1.successful = 2 ∧
      (processAll c1Extract none "t1" (⟨0, 0⟩, emptyStorage) [c1r1, c1r2, c1r3]).1.failed = 1 ∧
      (processAll c1Extract none "t1" (⟨0, 0⟩, emptyStorage) [c1r1, c1r2, c1r3]).2.log.resources.map
          (fun e => (e.url, e.status)) =
        [("https://a.example/x", "completed"), ("https://c.example/z", "completed")] ∧
      (processAll c1Extract none "t1"
          (⟨0, 0⟩, emptyStorage) [c1r1, c1r2, c1r3]).2.log.resources.length = 2 ∧
      ((processAll c1Extract none "t1"
          (⟨0, 0⟩, emptyStorage) [c1r1, c1r2, c1r3]).2.log.resources.filter
          (fun e => e.status == "failed")).length = 0 :=
  ⟨rfl, rfl, rfl, rfl, rfl⟩

theorem c1_failure_isolation_amended_witness :
    (processAll c1Extract none "t1" (⟨0, 0⟩, emptyStorage) [c1r1, c1r2, c1r3]).1.successful = 2 ∧
      (processAll c1Extract none "t1" (⟨0, 0⟩, emptyStorage) [c1r1, c1r2, c1r3]).1.failed = 1 ∧
      (∃ e1 e3 : LogEntry,
        (processAll c1Extract none "t1" (⟨0, 0⟩, emptyStorage) [c1r1, c1r2, c1r3]).2.log.resources =
          emptyStorage.log.resources ++ [e1, e3] ∧
        e1.url = String.mk (stripL (c1r1.url?.getD "").data) ∧ e1.status = "completed" ∧
        e3.url = String.mk (stripL (c1r3.url?.getD "").data) ∧ e3.status = "completed") ∧
      ((processAll c1Extract none "t1"
          (⟨0, 0⟩, emptyStorage) [c1r1, c1r2, c1r3]).2.log.resources.filter
          (fun e => e.status == "failed")).length =
        (emptyStorage.log.resources.filter (fun e => e.status == "failed")).length :=
  c1_failure_isolation_amended c1r1 c1r2 c1r3 c1Extract "t1" "boom" emptyStorage
    demoExtracted demoExtracted "article" "article" "article"
    [("domain", "a.example")] [("domain", "b.example")] [("domain", "c.example")]
    rfl rfl rfl rfl rfl rfl

theorem c2_collision_free_save_witness :
    (∃ p1 p2,
      (saveContent emptyStorage demoExtracted "article" "https://a/x" "t1" none).1 = some p1 ∧
      (saveContent (saveContent emptyStorage demoExtracted "article" "https://a/x" "t1" none).2
          demoExtracted2 "article" "https://a/y" "t2" none).1 = some p2 ∧
      p1 ≠ p2 ∧
      readFile (saveContent
          (saveContent emptyStorage demoExtracted "article" "https://a/x" "t1" none).2
          demoExtracted2 "article" "https://a/y" "t2" none).2.files p1 =
        some (formatMarkdown demoExtracted "article" "https://a/x" "t1") ∧
      readFile (saveContent
          (saveContent emptyStorage demoExtracted "article" "https://a/x" "t1" none).2
          demoExtracted2 "article" "https://a/y" "t2" none).2.files p2 =
        some (formatMarkdown demoExtracted2 "article" "https://a/y" "t2")) ∧
    (saveContent emptyStorage demoExtracted "article" "https://a/x" "t1" none).1 =
      some "knowledge/articles/hello-world.md" ∧
    (saveContent (saveContent emptyStorage demoExtracted "article" "https://a/x" "t1" none).2
        demoExtracted2 "article" "https://a/y" "t2" none).1 =
      some "knowledge/articles/hello-world-2.md" ∧
    (saveContent (saveContent
        (saveContent emptyStorage demoExtracted "article" "https://a/x" "t1" none).2
        demoExtracted2 "article" "https://a/y" "t2" none).2
        demoExtracted "article" "https://a/z" "t3" none).1 =
      some "knowledge/articles/hello-world-3.md" ∧
    formatMarkdown demoExtracted ("article") ("https://a/x") ("t1") ≠
      formatMarkdown demoExtracted2 ("article") ("https://a/y") ("t2") :=
  ⟨c2_collision_free_save emptyStorage demoExtracted demoExtracted2 "article"
      ("https://a/x") ("https://a/y") ("t1") ("t2") rfl,
    rfl, rfl, rfl, by decide⟩

theorem splitOnCharL_ne_nil (sep : Char) : ∀ cs, splitOnCharL sep cs ≠ [] := by
  intro cs
  induction cs with
  | nil => simp [splitOnCharL]
  | cons c cs ih =>
    simp only [splitOnCharL]
    cases h : splitOnCharL sep cs with
    | nil => simp
    | cons p ps => by_cases hc : (c == sep) = true <;> simp [hc]

theorem splitOnCharL_append (sep : Char) :
    ∀ (b rest : List Char), sep ∉ b →
      splitOnCharL sep (b ++ sep :: rest) = b :: splitOnCharL sep rest := by
  intro b
  induction b with
  | nil =>
    intro rest _
    simp only [List.nil_append, splitOnCharL]
    cases h : splitOnCharL sep rest with
    | nil => exact absurd h (splitOnCharL_ne_nil sep rest)
    | cons p ps => simp
  | cons c b ih =>
    intro rest hmem
    have hc : (c == sep) = false := by
      refine beq_eq_false_iff_ne.mpr ?_
      intro hcon
      exact hmem (hcon ▸ List.mem_cons_self c b)
    have hih := ih rest (fun hm => hmem (List.mem_cons_of_mem c hm))
    rw [List.cons_append]
    rw [show splitOnCharL sep (c :: (b ++ sep :: rest)) =
        (match splitOnCharL sep (b ++ sep :: rest) with
          | [] => [[]]
          | p :: ps => if c == sep then [] :: p :: ps else (c :: p) :: ps) from rfl]
    rw [hih]
    simp [hc]

theorem mem_of_mem_stripL {x : Char} {cs : List Char} (h : x ∈ stripL cs) : x ∈ cs := by
  rw [stripL] at h
  have h1 := List.mem_reverse.mp h
  have h2 := (List.dropWhile_sublist pySpace).subset h1
  have h3 := List.mem_reverse.mp h2
  exact (List.dropWhile_sublist pySpace).subset h3

theorem mem_of_getLast?_eq : ∀ (l : List Char) (x : Char), l.getLast? = some x → x ∈ l := by
  intro l
  induction l with
  | nil => intro x h; cases h
  | cons a t ih =>
    intro x h
    cases t with
    | nil =>
      simp only [List.getLast?_singleton, Option.some.injEq] at h
      exact h ▸ List.mem_cons_self a []
    | cons b t2 =>
      rw [List.getLast?_cons_cons] at h
      exact List.mem_cons_of_mem a (ih x h)

theorem loadResources_some (content : String) :
    loadResources (some content) =
      (match jsonLoads content with
        | some (Json.arr xs) => Except.ok xs
        | some (Json.obj kvs) => Except.ok [Json.obj kvs]
        | some _ => Except.error LoadError.unexpectedStructure
        | none => Except.ok (parseMultiArrayL content.data)) :=
  rfl

theorem processPart_good (b : List Char) (es : List Json)
    (hb : ']' ∉ b) (hne : stripL b ≠ []) (hhead : (stripL b).head? = some '[')
    (hparse : jsonLoadsL (stripL b ++ [']']) = some (Json.arr es)) :
    processPart b = es := by
  unfold processPart
  rw [if_neg hne]
  rw [if_neg (show ¬(stripL b).getLast? = some ']' from
    fun hcon => hb (mem_of_mem_stripL (mem_of_getLast?_eq _ _ hcon)))]
  have hheadapp : (stripL b ++ [']']).head? = some '[' := by
    cases hl : stripL b with
    | nil => exact absurd hl hne
    | cons a t =>
      rw [hl] at hhead
      simpa using hhead
  simp [hheadapp, hparse]

theorem parseMultiArrayL_frags :
    ∀ pairs : List (List Char × List Json),
      (∀ p ∈ pairs, ']' ∉ p.1 ∧ stripL p.1 ≠ [] ∧ (stripL p.1).head? = some '[' ∧
        jsonLoadsL (stripL p.1 ++ [']']) = some (Json.arr p.2)) →
      parseMultiArrayL (fragsContent pairs) = (pairs.map (fun p => p.2)).flatten := by
  intro pairs
  induction pairs with
  | nil => intro _; rfl
  | cons p ps ih =>
    intro hgood
    obtain ⟨hb, hne, hhead, hparse⟩ := hgood p (List.mem_cons_self p ps)
    have hcontent : fragsContent (p :: ps) = p.1 ++ ']' :: fragsContent ps := by
      simp [fragsContent]
    rw [hcontent]
    unfold parseMultiArrayL
    rw [splitOnCharL_append _ _ _ hb]
    simp only [List.map_cons, List.flatten_cons]
    rw [processPart_good p.1 p.2 hb hne hhead hparse]
    have hrec := ih (fun q hq => hgood q (List.mem_cons_of_mem p hq))
    unfold parseMultiArrayL at hrec
    rw [hrec]

/-- C3 (amended).  For a manifest that is the concatenation of fragments
`bᵢ ++ "]"` in which `]` occurs only as each fragment's terminator, each
fragment re-wrapping to a parseable array with entries `esᵢ`, and whose
whole text fails the strict parse: the recovery path of `load_resources`
returns exactly the union `es₁ ++ … ++ es_N`, in order.  (The claim's
unrestricted version fails when an entry's text itself contains `]` —
see the counterexample.) -/
theorem c3_multi_array_amended (pairs : List (List Char × List Json))
    (hgood : ∀ p ∈ pairs, ']' ∉ p.1 ∧ stripL p.1 ≠ [] ∧ (stripL p.1).head? = some '[' ∧
      jsonLoadsL (stripL p.1 ++ [']']) = some (Json.arr p.2))
    (hstrict : jsonLoads (String.mk (fragsContent pairs)) = none) :
    loadResources (some (String.mk (fragsContent pairs))) =
      Except.ok ((pairs.map (fun p => p.2)).flatten) := by
  show (match jsonLoads (String.mk (fragsContent pairs)) with
    | some (Json.arr xs) => Except.ok xs
    | some (Json.obj kvs) => Except.ok [Json.obj kvs]
    | some _ => Except.error LoadError.unexpectedStructure
    | none => Except.ok (parseMultiArrayL (String.mk (fragsContent pairs)).data)) = _
  rw [hstrict]
  show Except.ok (parseMultiArrayL (fragsContent pairs)) = _
  rw [parseMultiArrayL_frags pairs hgood]

theorem c3_multi_array_amended_witness :
    loadResources (some (String.mk (fragsContent [c3frag1, c3frag2]))) =
      Except.ok (([c3frag1, c3frag2].map (fun p => p.2)).flatten) := by
  refine c3_multi_array_amended [c3frag1, c3frag2] ?_ rfl
  intro p hp
  simp only [List.mem_cons, List.not_mem_nil, or_false] at hp
  rcases hp with rfl | rfl
  · exact ⟨by decide, by decide, rfl, rfl⟩
  · exact ⟨by decide, by decide, rfl, rfl⟩

/-- C3 (counterexample to the claim as stated).  The manifest
`[{"u":"x"}][{"u":"a]b"}]` is the concatenation of two syntactically valid
sequences (the strict parse of each succeeds) and fails the strict parse as
a whole, yet the recovery parser returns only the first sequence's entry:
the `]` inside the string `"a]b"` splits the second fragment apart and both
pieces are dropped, so the result is not the union of the two sequences. -/
theorem c3_counterexample :
    jsonLoads ("[\x7b\"u\":\"x\"\x7d][\x7b\"u\":\"a]b\"\x7d]") = none ∧
      jsonLoads ("[\x7b\"u\":\"x\"\x7d]") =
        some (Json.arr [Json.obj [("u", Json.str "x")]]) ∧
      jsonLoads ("[\x7b\"u\":\"a]b\"\x7d]") =
        some (Json.arr [Json.obj [("u", Json.str "a]b")]]) ∧
      ("[\x7b\"u\":\"x\"\x7d][\x7b\"u\":\"a]b\"\x7d]" : String) =
        "[\x7b\"u\":\"x\"\x7d]" ++ "[\x7b\"u\":\"a]b\"\x7d]" ∧
      parseMultiArrayL ("[\x7b\"u\":\"x\"\x7d][\x7b\"u\":\"a]b\"\x7d]").data =
        [Json.obj [("u", Json.str "x")]] ∧
      (parseMultiArrayL ("[\x7b\"u\":\"x\"\x7d][\x7b\"u\":\"a]b\"\x7d]").data).length = 1 :=
  ⟨rfl, rfl, rfl, rfl, rfl, rfl⟩

/-- C4 (counterexample to the claim as stated).  A file whose content is
`42` strict-parses to a number, which is neither a sequence nor a mapping:
`load_resources` hits `raise ValueError("Unexpected JSON structure")`, which
the `except json.JSONDecodeError` clause does not catch — so an existing,
readable file can make `load` raise, contradicting "never raises for any
content whatsoever". -/
theorem c4_counterexample :
    loadResources (some ("42")) = Except.error LoadError.unexpectedStructure ∧
      jsonLoads ("42") = some (Json.num "42") :=
  ⟨rfl, rfl⟩

/-- C4 (amended).  `load` raises `ResourceFileNotFound` exactly when the
path does not exist.  When the path exists, the only raise is the uncaught
`ValueError` on content that strict-parses to a non-container value (a bare
number, string, boolean or null); for every other content — including
everything the strict parse rejects — `load` returns normally, degrading to
fewer (possibly zero) recovered entries. -/
theorem c4_load_total_amended :
    loadResources none = Except.error LoadError.fileNotFound ∧
      (∀ content : String, loadResources (some content) ≠ Except.error LoadError.fileNotFound) ∧
      (∀ (content : String) (e : LoadError), loadResources (some content) = Except.error e →
        e = LoadError.unexpectedStructure ∧
          ∃ v, jsonLoads content = some v ∧ isContainerB v = false) ∧
      (∀ (content : String) (v : Json), jsonLoads content = some v → isContainerB v = false →
        loadResources (some content) = Except.error LoadError.unexpectedStructure) := by
  refine ⟨rfl, ?_, ?_, ?_⟩
  · intro content hcon
    rw [loadResources_some] at hcon
    cases h : jsonLoads content with
    | none => rw [h] at hcon; cases hcon
    | some v => rw [h] at hcon; cases v <;> cases hcon
  · intro content e hcon
    rw [loadResources_some] at hcon
    cases h : jsonLoads content with
    | none => rw [h] at hcon; cases hcon
    | some v =>
      rw [h] at hcon
      cases v <;> cases hcon <;> exact ⟨rfl, _, rfl, rfl⟩
  · intro content v h hv
    rw [loadResources_some, h]
    cases v <;> first
      | rfl
      | (exact absurd hv (by simp [isContainerB]))

theorem c4_load_total_amended_witness :
    (loadResources (some ("42")) = Except.error LoadError.unexpectedStructure ∧
      ∃ v, jsonLoads ("42") = some v ∧ isContainerB v = false) ∧
    loadResources (some ("true")) = Except.error LoadError.unexpectedStructure :=
  ⟨⟨rfl, (c4_load_total_amended.2.2.1 ("42") LoadError.unexpectedStructure rfl).2⟩,
    c4_load_total_amended.2.2.2 ("true") (Json.bool true) rfl rfl⟩

theorem dedupGo_sublist : ∀ (rs : List Resource) (seen : List String),
    (dedupGo rs seen).Sublist rs := by
  intro rs
  induction rs with
  | nil => intro seen; exact List.Sublist.refl []
  | cons r rs ih =>
    intro seen
    show (if normUrl r ∈ seen then dedupGo rs seen
      else r :: dedupGo rs (normUrl r :: seen)).Sublist (r :: rs)
    by_cases h : normUrl r ∈ seen
    · rw [if_pos h]; exact (ih seen).cons r
    · rw [if_neg h]; exact (ih (normUrl r :: seen)).cons₂ r

theorem dedupGo_not_mem_seen : ∀ (rs : List Resource) (seen : List String) (s : Resource),
    s ∈ dedupGo rs seen → normUrl s ∉ seen := by
  intro rs
  induction rs with
  | nil => intro seen s h; cases h
  | cons r rs ih =>
    intro seen s h
    unfold dedupGo at h
    split at h
    · exact ih seen s h
    · rcases List.mem_cons.mp h with rfl | hmem
      · assumption
      · exact fun hcon => ih (normUrl r :: seen) s hmem (List.mem_cons_of_mem _ hcon)

theorem dedupGo_pairwise : ∀ (rs : List Resource) (seen : List String),
    (dedupGo rs seen).Pairwise (fun a b => normUrl a ≠ normUrl b) := by
  intro rs
  induction rs with
  | nil => intro seen; simp [dedupGo]
  | cons r rs ih =>
    intro seen
    show (if normUrl r ∈ seen then dedupGo rs seen
      else r :: dedupGo rs (normUrl r :: seen)).Pairwise (fun a b => normUrl a ≠ normUrl b)
    by_cases h : normUrl r ∈ seen
    · rw [if_pos h]; exact ih seen
    · rw [if_neg h]
      refine List.pairwise_cons.mpr ⟨?_, ih (normUrl r :: seen)⟩
      intro b hb heq
      exact dedupGo_not_mem_seen rs (normUrl r :: seen) b hb (heq ▸ List.mem_cons_self _ _)

theorem dedupGo_covers : ∀ (rs : List Resource) (seen : List String) (r : Resource),
    r ∈ rs → normUrl r ∈ seen ∨ ∃ s ∈ dedupGo rs seen, normUrl s = normUrl r := by
  intro rs
  induction rs with
  | nil => intro seen r hr; cases hr
  | cons x rs ih =>
    intro seen r hr
    show _ ∨ ∃ s ∈ (if normUrl x ∈ seen then dedupGo rs seen
      else x :: dedupGo rs (normUrl x :: seen)), normUrl s = normUrl r
    by_cases hx : normUrl x ∈ seen
    · rw [if_pos hx]
      rcases List.mem_cons.mp hr with rfl | hmem
      · left; exact hx
      · exact ih seen r hmem
    · rw [if_neg hx]
      rcases List.mem_cons.mp hr with rfl | hmem
      · right; exact ⟨r, List.mem_cons_self _ _, rfl⟩
      · rcases ih (normUrl x :: seen) r hmem with hseen | ⟨s, hs, hnu⟩
        · rcases List.mem_cons.mp hseen with heq | hseen2
          · right; exact ⟨x, List.mem_cons_self _ _, heq.symm⟩
          · left; exact hseen2
        · right; exact ⟨s, List.mem_cons_of_mem x hs, hnu⟩

theorem dedupGo_first : ∀ (rs : List Resource) (seen : List String) (s : Resource),
    s ∈ dedupGo rs seen → rs.find? (fun r => normUrl r == normUrl s) = some s := by
  intro rs
  induction rs with
  | nil => intro seen s h; cases h
  | cons x rs ih =>
    intro seen s h
    rw [show dedupGo (x :: rs) seen = (if normUrl x ∈ seen then dedupGo rs seen
      else x :: dedupGo rs (normUrl x :: seen)) from rfl] at h
    by_cases hx : normUrl x ∈ seen
    · rw [if_pos hx] at h
      have hne : ¬(fun r => normUrl r == normUrl s) x = true := fun hbeq =>
        dedupGo_not_mem_seen rs seen s h (beq_iff_eq.mp hbeq ▸ hx)
      rw [@List.find?_cons_of_neg Resource (fun r => normUrl r == normUrl s) x rs hne]
      exact ih seen s h
    · rw [if_neg hx] at h
      rcases List.mem_cons.mp h with rfl | hmem
      · rw [@List.find?_cons_of_pos Resource (fun r => normUrl r == normUrl s) s rs (by simp)]
      · have hns := dedupGo_not_mem_seen rs (normUrl x :: seen) s hmem
        have hne : ¬(fun r => normUrl r == normUrl s) x = true := fun hbeq =>
          hns (beq_iff_eq.mp hbeq ▸ List.mem_cons_self _ _)
        rw [@List.find?_cons_of_neg Resource (fun r => normUrl r == normUrl s) x rs hne]
        exact ih (normUrl x :: seen) s hmem

/-- C8.  `deduplicate_resources` returns a list no longer than its input, in
which no two entries share a normalized (trimmed, lower-cased) URL; the
output is a sublist of the input (stable order), every input URL is
represented, and each kept entry is exactly the first entry of the input
with its normalized URL — first occurrence wins. -/
theorem c8_dedup_first_occurrence (rs : List Resource) :
    (deduplicateResources rs).length ≤ rs.length ∧
      (deduplicateResources rs).Sublist rs ∧
      (deduplicateResources rs).Pairwise (fun a b => normUrl a ≠ normUrl b) ∧
      (∀ r ∈ rs, ∃ s ∈ deduplicateResources rs, normUrl s = normUrl r) ∧
      (∀ s ∈ deduplicateResources rs,
        rs.find? (fun r => normUrl r == normUrl s) = some s) := by
  refine ⟨(dedupGo_sublist rs []).length_le, dedupGo_sublist rs [], dedupGo_pairwise rs [],
    ?_, fun s hs => dedupGo_first rs [] s hs⟩
  intro r hr
  rcases dedupGo_covers rs [] r hr with hseen | hex
  · cases hseen
  · exact hex

theorem c8_dedup_first_occurrence_witness :
    (deduplicateResources [⟨some ("  https://A/x "), 0⟩, ⟨some ("https://a/x"), 1⟩,
        ⟨some ("https://b/y"), 2⟩]).length ≤ 3 ∧
      deduplicateResources [⟨some ("  https://A/x "), 0⟩, ⟨some ("https://a/x"), 1⟩,
        ⟨some ("https://b/y"), 2⟩] =
        [⟨some ("  https://A/x "), 0⟩, ⟨some ("https://b/y"), 2⟩] ∧
      (∀ s ∈ deduplicateResources [⟨some ("  https://A/x "), 0⟩, ⟨some ("https://a/x"), 1⟩,
          ⟨some ("https://b/y"), 2⟩],
        ([⟨some ("  https://A/x "), 0⟩, ⟨some ("https://a/x"), 1⟩,
          ⟨some ("https://b/y"), 2⟩] : List Resource).find?
            (fun r => normUrl r == normUrl s) = some s) :=
  ⟨(c8_dedup_first_occurrence _).1, rfl, (c8_dedup_first_occurrence _).2.2.2.2⟩

theorem detectTypeE_of_parse_ok (url : String) (pr : UrlParsed)
    (hpr : urlparseL (stripL url.data) = Except.ok pr) :
    detectTypeE url =
      (if isGithubB (lowerL pr.netloc) (lowerL pr.path) then
        Except.ok ("github-repo", githubMeta pr)
      else if isYoutubeB (lowerL pr.netloc) (lowerL pr.path) then
        Except.ok ("youtube-video", youtubeMeta (stripL url.data) pr)
      else if isBlogB (lowerL pr.netloc) (lowerL pr.path) then
        Except.ok ("blog-post", [("domain", String.mk (lowerL pr.netloc))])
      else Except.ok ("article", [("domain", String.mk (lowerL pr.netloc))])) := by
  unfold detectTypeE detectParsed parseGithubUrlE parseYoutubeUrlE
  rw [hpr]

theorem detectTypeE_ok_parse (url : String) (t : String) (md : List (String × String))
    (h : detectTypeE url = Except.ok (t, md)) :
    ∃ pr, urlparseL (stripL url.data) = Except.ok pr := by
  cases hp : urlparseL (stripL url.data) with
  | error e =>
    unfold detectTypeE detectParsed at h
    rw [hp] at h
    cases h
  | ok pr => exact ⟨pr, rfl⟩

theorem githubMeta_lookup_domain (pr : UrlParsed) :
    (githubMeta pr).lookup "domain" = some "github.com" := by
  unfold githubMeta
  cases pathSegs pr.path with
  | nil => rfl
  | cons a t => cases t <;> rfl

theorem youtubeMeta_lookup_domain (u : List Char) (pr : UrlParsed) :
    (youtubeMeta u pr).lookup "domain" = some "youtube.com" := by
  unfold youtubeMeta
  split_ifs
  · cases searchVParam u <;> rfl
  · cases pathSegs pr.path <;> rfl
  · rfl

/-- C9 (amended).  Whenever `classify` returns, it returns exactly one of
the four categories `github-repo`, `youtube-video`, `blog-post`, `article`,
and never `unknown`.  It is not total, however: `urlparse` raises
`ValueError` on URLs whose netloc has an unmatched square bracket (see the
counterexample), and the orchestrator catches that raise like any other
per-resource failure. -/
theorem c9_classify_amended (url : String) (t : String) (md : List (String × String))
    (h : detectTypeE url = Except.ok (t, md)) :
    (t = "github-repo" ∨ t = "youtube-video" ∨ t = "blog-post" ∨ t = "article") ∧
      t ≠ "unknown" := by
  obtain ⟨pr, hpr⟩ := detectTypeE_ok_parse url t md h
  rw [detectTypeE_of_parse_ok url pr hpr] at h
  split_ifs at h <;> rw [Except.ok.injEq, Prod.mk.injEq] at h <;>
    obtain ⟨ht, -⟩ := h <;> subst ht
  · exact ⟨Or.inl rfl, by decide⟩
  · exact ⟨Or.inr (Or.inl rfl), by decide⟩
  · exact ⟨Or.inr (Or.inr (Or.inl rfl)), by decide⟩
  · exact ⟨Or.inr (Or.inr (Or.inr rfl)), by decide⟩

theorem c9_classify_amended_witness :
    (("article" : String) = "github-repo" ∨ ("article" : String) = "youtube-video" ∨
        ("article" : String) = "blog-post" ∨ ("article" : String) = "article") ∧
      ("article" : String) ≠ "unknown" :=
  c9_classify_amended ("https://example.com/x") ("article") [("domain", "example.com")] rfl

/-- C9 (counterexample to the claim as stated).  `classify` is not total:
on `http://[::1` the embedded `urlparse` hits the "Invalid IPv6 URL" check
(netloc contains `[` without `]`) and raises `ValueError`, so classify
raises instead of returning a category. -/
theorem c9_counterexample : detectTypeE ("http://[::1") = Except.error () := rfl

/-- C10.  For github-repo classifications the reported metadata `domain` is
the fixed literal `github.com`, and for youtube-video classifications
(including `youtu.be` short links) it is the fixed literal `youtube.com` —
regardless of the host actually parsed from the URL; for blog-post and
article classifications `domain` is the lowercased parsed netloc. -/
theorem c10_domain_constant (url : String) (t : String) (md : List (String × String))
    (h : detectTypeE url = Except.ok (t, md)) :
    (t = "github-repo" → md.lookup "domain" = some "github.com") ∧
      (t = "youtube-video" → md.lookup "domain" = some "youtube.com") ∧
      ((t = "blog-post" ∨ t = "article") →
        ∃ pr, urlparseL (stripL url.data) = Except.ok pr ∧
          md.lookup "domain" = some (String.mk (lowerL pr.netloc))) := by
  obtain ⟨pr, hpr⟩ := detectTypeE_ok_parse url t md h
  rw [detectTypeE_of_parse_ok url pr hpr] at h
  split_ifs at h <;> rw [Except.ok.injEq, Prod.mk.injEq] at h <;>
    obtain ⟨ht, hmd⟩ := h <;> subst ht <;> subst hmd
  · exact ⟨fun _ => githubMeta_lookup_domain pr, fun hcon => absurd hcon (by decide),
      fun hcon => absurd hcon (by decide)⟩
  · exact ⟨fun hcon => absurd hcon (by decide),
      fun _ => youtubeMeta_lookup_domain (stripL url.data) pr,
      fun hcon => absurd hcon (by decide)⟩
  · exact ⟨fun hcon => absurd hcon (by decide), fun hcon => absurd hcon (by decide),
      fun _ => ⟨pr, hpr, rfl⟩⟩
  · exact ⟨fun hcon => absurd hcon (by decide), fun hcon => absurd hcon (by decide),
      fun _ => ⟨pr, hpr, rfl⟩⟩

theorem c10_domain_constant_witness :
    (("github-repo" : String) = "github-repo" →
      (([("domain", "github.com"), ("owner", "Owner"), ("repo", "Repo"),
          ("full_name", "Owner/Repo")] : List (String × String)).lookup "domain" =
        some "github.com")) ∧
      (("github-repo" : String) = "youtube-video" →
        (([("domain", "github.com"), ("owner", "Owner"), ("repo", "Repo"),
            ("full_name", "Owner/Repo")] : List (String × String)).lookup "domain" =
          some "youtube.com")) ∧
      ((("github-repo" : String) = "blog-post" ∨ ("github-repo" : String) = "article") →
        ∃ pr, urlparseL (stripL ("HTTPS://GitHub.COM/Owner/Repo").data) = Except.ok pr ∧
          (([("domain", "github.com"), ("owner", "Owner"), ("repo", "Repo"),
              ("full_name", "Owner/Repo")] : List (String × String)).lookup "domain" =
            some (String.mk (lowerL pr.netloc)))) :=
  c10_domain_constant ("HTTPS://GitHub.COM/Owner/Repo") ("github-repo")
    [("domain", "github.com"), ("owner", "Owner"), ("repo", "Repo"),
      ("full_name", "Owner/Repo")] rfl

/-- C5 (amended).  `classify` assigns github-repo exactly when the
lowercased netloc contains `github.com` and the lowercased path contains at
least two `/` characters (`path.count('/') >= 2` — not "at least two
non-empty segments"); the metadata carries `owner`/`repo`/`full_name` (the
first two non-empty path segments) only when the path does have at least two
non-empty segments; and the concrete URL
`https://github.com/acme/widgets/issues/3` yields github-repo with
`owner=acme`, `repo=widgets`, `full_name=acme/widgets`. -/
theorem c5_github_amended :
    (∀ (url t : String) (md : List (String × String)) (pr : UrlParsed),
      detectTypeE url = Except.ok (t, md) →
      urlparseL (stripL url.data) = Except.ok pr →
      (t = "github-repo" ↔
        (containsSubL ("github.com").data (lowerL pr.netloc) = true ∧
          2 ≤ countCharL '/' (lowerL pr.path)))) ∧
      (∀ (url t : String) (md : List (String × String)) (pr : UrlParsed)
          (owner repo : List Char) (rest : List (List Char)),
        detectTypeE url = Except.ok (t, md) →
        urlparseL (stripL url.data) = Except.ok pr →
        t = "github-repo" → pathSegs pr.path = owner :: repo :: rest →
        md = [("domain", "github.com"), ("owner", String.mk owner), ("repo", String.mk repo),
          ("full_name", String.mk (owner ++ '/' :: repo))]) ∧
      detectTypeE ("https://github.com/acme/widgets/issues/3") =
        Except.ok ("github-repo",
          [("domain", "github.com"), ("owner", "acme"), ("repo", "widgets"),
            ("full_name", "acme/widgets")]) := by
  refine ⟨?_, ?_, rfl⟩
  · intro url t md pr h hpr
    rw [detectTypeE_of_parse_ok url pr hpr] at h
    split_ifs at h with h1 h2 h3 <;> rw [Except.ok.injEq, Prod.mk.injEq] at h <;>
      obtain ⟨ht, -⟩ := h <;> subst ht
    · simp only [isGithubB, Bool.and_eq_true, decide_eq_true_eq] at h1
      exact iff_of_true rfl h1
    · refine iff_of_false (by decide) ?_
      rintro ⟨hc, hcount⟩
      exact h1 (by simp [isGithubB, hc, hcount])
    · refine iff_of_false (by decide) ?_
      rintro ⟨hc, hcount⟩
      exact h1 (by simp [isGithubB, hc, hcount])
    · refine iff_of_false (by decide) ?_
      rintro ⟨hc, hcount⟩
      exact h1 (by simp [isGithubB, hc, hcount])
  · intro url t md pr owner repo rest h hpr ht hsegs
    subst ht
    rw [detectTypeE_of_parse_ok url pr hpr] at h
    split_ifs at h with h1 h2 h3 <;> rw [Except.ok.injEq, Prod.mk.injEq] at h <;>
      obtain ⟨ht2, hmd⟩ := h
    · rw [← hmd]
      unfold githubMeta
      rw [hsegs]
    · exact absurd ht2 (by decide)
    · exact absurd ht2 (by decide)
    · exact absurd ht2 (by decide)

theorem c5_github_amended_witness :
    (("github-repo" : String) = "github-repo" ↔
      (containsSubL ("github.com").data
          (lowerL (("github.com").data : List Char)) = true ∧
        2 ≤ countCharL '/' (lowerL (("/a/b").data : List Char)))) ∧
      ([("domain", "github.com"), ("owner", "a"), ("repo", "b"),
          ("full_name", "a/b")] : List (String × String)) =
        [("domain", "github.com"), ("owner", String.mk ("a").data),
          ("repo", String.mk ("b").data),
          ("full_name", String.mk (("a").data ++ '/' :: ("b").data))] :=
  ⟨c5_github_amended.1 ("https://github.com/a/b") ("github-repo")
      [("domain", "github.com"), ("owner", "a"), ("repo", "b"), ("full_name", "a/b")]
      ⟨("https").data, ("github.com").data, ("/a/b").data, [], []⟩ rfl rfl,
    c5_github_amended.2.1 ("https://github.com/a/b") ("github-repo")
      [("domain", "github.com"), ("owner", "a"), ("repo", "b"), ("full_name", "a/b")]
      ⟨("https").data, ("github.com").data, ("/a/b").data, [], []⟩
      (("a").data) (("b").data) [] rfl rfl rfl rfl⟩

/-- C5 (counterexample to the claim as stated).  `https://github.com/acme/`
has only one non-empty path segment, yet `classify` returns github-repo
(`'/acme/'.count('/') == 2`), and its metadata carries no `owner`/`repo`
keys — so "github-repo iff at least two non-empty segments, with owner/repo
metadata" fails. -/
theorem c5_counterexample :
    detectTypeE ("https://github.com/acme/") =
        Except.ok ("github-repo", [("domain", "github.com")]) ∧
      (pathSegs (("/acme/").data)).length = 1 ∧
      (([("domain", "github.com")] : List (String × String)).lookup "owner" = none) :=
  ⟨rfl, rfl, rfl⟩

theorem c7_log_append_only_witness :
    (∃ tail, (processAll c1Extract none "t2" (⟨0, 0⟩, preloadedStorage) [c1r1]).2.log.resources =
        preloadedStorage.log.resources ++ tail) ∧
      (processAll c1Extract none "t2" (⟨0, 0⟩, preloadedStorage) [c1r1]).2.log.resources.length =
        preloadedStorage.log.resources.length +
          ([c1r1].filter (saveAttemptedB c1Extract)).length ∧
      (processAll c1Extract none "t2" (⟨0, 0⟩, preloadedStorage) [c1r1]).2.log.totalProcessed =
        (processAll c1Extract none "t2" (⟨0, 0⟩, preloadedStorage) [c1r1]).2.log.resources.length :=
  c7_log_append_only c1Extract none "t2" [c1r1] ⟨0, 0⟩ preloadedStorage rfl

end AiStudio
